import Mathlib

/-!
Shallow embedding of the osteo-canin backend (auth service, user routes,
animal routes, reminder routes) and proofs of its specified properties.

Conventions of the embedding:
* the relational store is a record of lists of rows; `prisma.findUnique` /
  `findFirst` become `List.find?`, `updateMany` / `update` become `List.map`
  with a guard, `delete` becomes `List.filter`;
* bcrypt comparison and JWT verification are impure externals and are passed
  in as function parameters (`compare`, `verify`);
* a signed JWT carries the user id as its only claim, so issued tokens are
  modelled as records holding that claim;
* JS timestamps and dates are modelled as `Int` epoch milliseconds;
* a thrown service error caught by a route handler leaves the store
  untouched, so operations return `Except`, the error case meaning that no
  write happened.
-/

namespace OsteoCanin

inductive UserRole where
  | ADMIN
  | PRACTITIONER
  | CLIENT
deriving DecidableEq, Repr

/-- Error taxonomy of the auth service, one constructor per distinct thrown
message in `authService.ts`. -/
inductive AuthError where
  | DuplicateEmail
  | InvalidCredentials
  | PendingValidation
  | InvalidRefreshToken
  | AccountRevoked
  | ClientNotFound
  | OnlyClientsValidated
  | AlreadyValidated
deriving DecidableEq, Repr

structure User where
  id : String
  email : String
  password : String
  firstName : String
  lastName : String
  phone : Option String
  role : UserRole
  validated : Bool
deriving DecidableEq, Repr

structure AuditEntry where
  userId : String
  action : String
deriving DecidableEq, Repr

structure AuthDB where
  users : List User
  auditLog : List AuditEntry
deriving DecidableEq, Repr

/-- `email.toLowerCase()`, spelled out over the character list (the core
`String.map` does not reduce in proofs). -/
def lowercase (s : String) : String := ⟨s.data.map Char.toLower⟩

/-- `prisma.user.findUnique({ where: { email: email.toLowerCase() } })`. -/
def findUserByEmail (db : AuthDB) (email : String) : Option User :=
  db.users.find? (fun u => u.email == lowercase email)

/-- `prisma.user.findUnique({ where: { id } })`. -/
def findUserById (db : AuthDB) (id : String) : Option User :=
  db.users.find? (fun u => u.id == id)

/-- A signed access token; the user id is the only claim `jwt.sign` embeds. -/
structure AccessToken where
  userId : String
deriving DecidableEq, Repr

/-- A signed refresh token; the user id is the only claim. -/
structure RefreshTok where
  userId : String
deriving DecidableEq, Repr

structure Tokens where
  token : AccessToken
  refreshToken : RefreshTok
deriving DecidableEq, Repr

/-- `AuthService.generateTokens`. -/
def generateTokens (userId : String) : Tokens :=
  { token := { userId := userId }, refreshToken := { userId := userId } }

structure AuthUser where
  id : String
  email : String
  firstName : String
  lastName : String
  phone : Option String
  role : UserRole
  validated : Bool
deriving DecidableEq, Repr

def User.toAuthUser (u : User) : AuthUser :=
  { id := u.id, email := u.email, firstName := u.firstName,
    lastName := u.lastName, phone := u.phone, role := u.role,
    validated := u.validated }

structure AuthResponse where
  user : AuthUser
  token : AccessToken
  refreshToken : RefreshTok
deriving DecidableEq, Repr

/-- `AuthService.login`; `compare` stands for `bcrypt.compare`. -/
def login (compare : String → String → Bool) (db : AuthDB)
    (email password : String) : Except AuthError (AuthResponse × AuthDB) :=
  match findUserByEmail db email with
  | none => .error .InvalidCredentials
  | some user =>
    if !(compare password user.password) then .error .InvalidCredentials
    else if user.role == .CLIENT && !user.validated then
      .error .PendingValidation
    else
      let tokens := generateTokens user.id
      let db2 := { db with
        auditLog := db.auditLog ++ [{ userId := user.id, action := "USER_LOGIN" }] }
      .ok ({ user := user.toAuthUser, token := tokens.token,
             refreshToken := tokens.refreshToken }, db2)

structure RegisterInput where
  firstName : String
  lastName : String
  email : String
  phone : Option String
  password : String
deriving DecidableEq, Repr

/-- `AuthService.register`; `hash` stands for `bcrypt.hash`, `freshId` for the
id the store generates for the new row. -/
def register (hash : String → String) (freshId : String) (db : AuthDB)
    (data : RegisterInput) : Except AuthError (User × AuthDB) :=
  match findUserByEmail db data.email with
  | some _ => .error .DuplicateEmail
  | none =>
    let user : User :=
      { id := freshId, email := lowercase data.email,
        password := hash data.password, firstName := data.firstName,
        lastName := data.lastName, phone := data.phone,
        role := .CLIENT, validated := false }
    .ok (user, { db with
      users := db.users ++ [user],
      auditLog := db.auditLog ++ [{ userId := freshId, action := "USER_REGISTERED" }] })

/-- `AuthService.validateClient`. -/
def validateClient (db : AuthDB) (clientId adminUserId : String) :
    Except AuthError (User × AuthDB) :=
  match findUserById db clientId with
  | none => .error .ClientNotFound
  | some client =>
    if client.role != .CLIENT then .error .OnlyClientsValidated
    else if client.validated then .error .AlreadyValidated
    else
      let users2 := db.users.map (fun u =>
        if u.id = clientId then { u with validated := true } else u)
      .ok ({ client with validated := true },
           { users := users2,
             auditLog := db.auditLog ++
               [{ userId := adminUserId, action := "CLIENT_VALIDATED" }] })

/-- Body of the `try` block of `AuthService.refreshToken`; `verify` stands for
`jwt.verify` with the refresh secret, returning the decoded user id claim or
`none` when verification throws (bad signature or expired token). -/
def refreshTokenInner (verify : String → Option String) (db : AuthDB)
    (tok : String) : Except AuthError AuthResponse :=
  match verify tok with
  | none => .error .InvalidRefreshToken
  | some userId =>
    match findUserById db userId with
    | none => .error .InvalidRefreshToken
    | some user =>
      if user.role == .CLIENT && !user.validated then .error .AccountRevoked
      else
        let tokens := generateTokens user.id
        .ok { user := user.toAuthUser, token := tokens.token,
              refreshToken := tokens.refreshToken }

/-- `AuthService.refreshToken`: the surrounding `catch` rethrows every failure
as the single invalid-refresh-token error. -/
def refreshToken (verify : String → Option String) (db : AuthDB)
    (tok : String) : Except AuthError AuthResponse :=
  match refreshTokenInner verify db tok with
  | .ok r => .ok r
  | .error _ => .error .InvalidRefreshToken

/-! Route-level register (`POST /auth/register` in `routes/auth.ts`). The raw
request body may carry extra fields — in particular a `role` — which the
handler never reads. -/

structure RegisterBody where
  firstName : Option String
  lastName : Option String
  email : Option String
  phone : Option String
  password : Option String
  role : Option UserRole
deriving DecidableEq, Repr

inductive RegisterRouteError where
  | MissingFields
  | PasswordTooShort
  | InvalidEmailFormat
  | ServiceError (e : AuthError)
deriving DecidableEq, Repr

def isJsSpace (c : Char) : Bool :=
  c = ' ' || c = '\t' || c = '\n' || c = '\r' || c = '\x0b' || c = '\x0c'

/-- `s.trim()`: strip whitespace from both ends (spelled out over the
character list so that it reduces in proofs). -/
def trimStr (s : String) : String :=
  ⟨((s.data.dropWhile isJsSpace).reverse.dropWhile isJsSpace).reverse⟩

/-- Split a character list at every occurrence of `sep`. -/
def splitChar (sep : Char) : List Char → List (List Char)
  | [] => [[]]
  | c :: rest =>
    let r := splitChar sep rest
    if c = sep then [] :: r
    else
      match r with
      | [] => [[c]]
      | h :: t => (c :: h) :: t

/-- `s.split(sep)` for a one-character separator (the only shape the routes
use), spelled out so that it reduces in proofs. -/
def splitOnChar (s : String) (sep : Char) : List String :=
  (splitChar sep s.data).map (fun cs => ⟨cs⟩)

/-- `s.startsWith(p)`, spelled out over the character lists. -/
def strStartsWith (s p : String) : Bool :=
  s.data.take p.data.length == p.data

def isEmailAtomChar (c : Char) : Bool :=
  !(isJsSpace c) && c != '@'

/-- The route email check, a transcription of the JS test of the pattern
`[^\s@]+` at `@` `[^\s@]+` dot `[^\s@]+`, anchored at both ends: exactly one
at-sign, a nonempty local part of non-space non-at characters, and a domain
of such characters that splits as nonempty-part, dot, nonempty-part. Since
the dot character itself belongs to the `[^\s@]` class, that split exists
exactly when the domain has a dot at an interior position — a domain such as
`example.com.` is accepted through its interior dot, while `a.` or `.a`
alone are rejected. -/
def emailFormatOk (email : String) : Bool :=
  match splitOnChar email '@' with
  | [localPart, domain] =>
    localPart.length > 0 && localPart.toList.all isEmailAtomChar &&
    domain.toList.all isEmailAtomChar &&
    (domain.data.drop 1).dropLast.contains '.'
  | _ => false

/-- `POST /auth/register`: field presence and JS-truthiness checks, password
length, email format, then the service call. `body.role` is never consulted. -/
def registerRoute (hash : String → String) (freshId : String) (db : AuthDB)
    (body : RegisterBody) : Except RegisterRouteError (User × AuthDB) :=
  match body.firstName, body.lastName, body.email, body.password with
  | some fn, some ln, some em, some pw =>
    if fn = "" || ln = "" || em = "" || pw = "" then .error .MissingFields
    else if pw.length < 6 then .error .PasswordTooShort
    else if !(emailFormatOk em) then .error .InvalidEmailFormat
    else
      let ph : Option String := match body.phone with
        | some p => if trimStr p = "" then none else some (trimStr p)
        | none => none
      match register hash freshId db
        { firstName := trimStr fn, lastName := trimStr ln, email := trimStr em,
          phone := ph, password := pw } with
      | .ok r => .ok r
      | .error e => .error (.ServiceError e)
  | _, _, _, _ => .error .MissingFields

/-! User-management routes (`routes/users.ts`). -/

inductive UsersRouteError where
  | UserNotFound
  | OnlyClients
  | EmailTaken
  | BadRequest
deriving DecidableEq, Repr

/-- Body of `PUT /users/:id`; `phone` distinguishes absent (outer `none`) from
an explicit null (`some none`), matching the `phone !== undefined` guard. -/
structure UpdateClientBody where
  firstName : Option String
  lastName : Option String
  phone : Option (Option String)
  email : Option String
deriving DecidableEq, Repr

/-- The field spreads of the `prisma.user.update` data in `PUT /users/:id`:
each of `firstName`/`lastName`/`email` is applied only when JS-truthy, `phone`
whenever it is not undefined. No other column is touched. -/
def profileFields (body : UpdateClientBody) (u : User) : User :=
  { u with
    firstName := match body.firstName with
      | some fn => if fn = "" then u.firstName else fn
      | none => u.firstName,
    lastName := match body.lastName with
      | some ln => if ln = "" then u.lastName else ln
      | none => u.lastName,
    phone := match body.phone with
      | some ph => ph
      | none => u.phone,
    email := match body.email with
      | some em => if em = "" then u.email else em
      | none => u.email }

/-- `PUT /users/:id` (update client profile). -/
def updateClientProfile (db : AuthDB) (id : String) (body : UpdateClientBody) :
    Except UsersRouteError (User × AuthDB) :=
  match findUserById db id with
  | none => .error .UserNotFound
  | some user =>
    if user.role != .CLIENT then .error .OnlyClients
    else
      let emailTaken := match body.email with
        | some em => em != "" &&
            (db.users.any (fun u => u.email == em && u.id != id))
        | none => false
      if emailTaken then .error .EmailTaken
      else
        let users2 := db.users.map (fun u =>
          if u.id = id then profileFields body u else u)
        .ok (profileFields body user, { db with users := users2 })

/-- `PUT /users/:id/validate` (route-level single validation); same guard
sequence as the service `validateClient`, different audit action tag. -/
def validateUserRoute (db : AuthDB) (id actorId : String) :
    Except UsersRouteError (User × AuthDB) :=
  match findUserById db id with
  | none => .error .UserNotFound
  | some user =>
    if user.role != .CLIENT then .error .OnlyClients
    else if user.validated then .error .BadRequest
    else
      let users2 := db.users.map (fun u =>
        if u.id = id then { u with validated := true } else u)
      .ok ({ user with validated := true },
           { users := users2,
             auditLog := db.auditLog ++
               [{ userId := actorId, action := "VALIDATE_CLIENT" }] })

/-- The `updateMany` filter of `PUT /users/bulk/validate`. -/
def bulkMatch (clientIds : List String) (u : User) : Bool :=
  clientIds.contains u.id && u.role == .CLIENT && !u.validated

/-- `PUT /users/bulk/validate`: flips `validated` on every listed id that is a
not-yet-validated CLIENT, silently skipping the rest, and reports the count of
rows actually updated. -/
def bulkValidateClients (db : AuthDB) (actorId : String)
    (clientIds : List String) : Except UsersRouteError (Nat × AuthDB) :=
  if clientIds.isEmpty then .error .BadRequest
  else
    let count := (db.users.filter (bulkMatch clientIds)).length
    let users2 := db.users.map (fun u =>
      if bulkMatch clientIds u then { u with validated := true } else u)
    .ok (count,
         { users := users2,
           auditLog := db.auditLog ++
             [{ userId := actorId, action := "BULK_VALIDATE_CLIENTS" }] })

/-- The exposed user-management operations of claim C8, acting on the store;
a failing call writes nothing and leaves the store as it was. -/
inductive UserOp where
  | updateProfile (id : String) (body : UpdateClientBody)
  | validateSingle (clientId actorId : String)
  | validateRoute (id actorId : String)
  | bulkValidate (actorId : String) (clientIds : List String)

def applyUserOp (db : AuthDB) : UserOp → AuthDB
  | .updateProfile id body =>
    match updateClientProfile db id body with
    | .ok (_, db2) => db2
    | .error _ => db
  | .validateSingle clientId actorId =>
    match validateClient db clientId actorId with
    | .ok (_, db2) => db2
    | .error _ => db
  | .validateRoute id actorId =>
    match validateUserRoute db id actorId with
    | .ok (_, db2) => db2
    | .error _ => db
  | .bulkValidate actorId clientIds =>
    match bulkValidateClients db actorId clientIds with
    | .ok (_, db2) => db2
    | .error _ => db

/-! Animal routes (`routes/animals.ts`). -/

inductive AnimalGender where
  | MALE
  | FEMALE
deriving DecidableEq, Repr

structure Animal where
  id : String
  ownerId : String
  name : String
  breed : String
  age : Nat
  weight : Option Nat
  gender : AnimalGender
  notes : Option String
deriving DecidableEq, Repr

inductive AppointmentStatus where
  | SCHEDULED
  | CONFIRMED
  | CANCELLED
  | COMPLETED
deriving DecidableEq, Repr, Fintype

structure Appointment where
  id : String
  clientId : String
  animalId : String
  status : AppointmentStatus
deriving DecidableEq, Repr

structure TreatmentNote where
  id : String
  animalId : String
deriving DecidableEq, Repr

structure ClinicDB where
  animals : List Animal
  appointments : List Appointment
  treatmentNotes : List TreatmentNote
deriving DecidableEq, Repr

structure Caller where
  id : String
  role : UserRole
deriving DecidableEq, Repr

/-- `role === ADMIN || role === PRACTITIONER`, the widening check used by
ownership-scoped routes. -/
def isAdminRole (r : UserRole) : Bool :=
  r == .ADMIN || r == .PRACTITIONER

inductive AnimalRouteError where
  | NotFound
  | DependencyBlocked
deriving DecidableEq, Repr

/-- `DELETE /animals/:id`: visibility check (ownership-scoped unless
admin/practitioner), then the dependency guard on appointments and treatment
notes, then the row deletion. -/
def deleteAnimal (db : ClinicDB) (caller : Caller) (id : String) :
    Except AnimalRouteError ClinicDB :=
  let isAdmin := isAdminRole caller.role
  let existing := db.animals.find? (fun a =>
    if isAdmin then a.id == id else a.id == id && a.ownerId == caller.id)
  match existing with
  | none => .error .NotFound
  | some _ =>
    let hasAppointments := db.appointments.any (fun ap => ap.animalId == id)
    let hasTreatmentNotes := db.treatmentNotes.any (fun n => n.animalId == id)
    if hasAppointments || hasTreatmentNotes then .error .DependencyBlocked
    else .ok { db with animals := db.animals.filter (fun a => a.id != id) }

/-- The store state after a `DELETE /animals/:id` request: an error response
writes nothing. -/
def deleteAnimalState (db : ClinicDB) (caller : Caller) (id : String) :
    ClinicDB :=
  match deleteAnimal db caller id with
  | .ok db2 => db2
  | .error _ => db

/-! Appointment status lifecycle. Modelled from the spec: the appointment
routes file is absent from `src/`; sections 4.3 and 8 of the spec give the
state diagram `SCHEDULED -> CONFIRMED | CANCELLED`,
`CONFIRMED -> CANCELLED | COMPLETED`, with `CANCELLED` and `COMPLETED`
terminal, and the operations `confirm`, `refuse` (lands on `CANCELLED`),
`cancel`, plus the completion step closing out a confirmed appointment. -/

/-- Modelled from the spec: `confirm(id)` is only valid from `SCHEDULED`. -/
def confirmStatus : AppointmentStatus → Option AppointmentStatus
  | .SCHEDULED => some .CONFIRMED
  | _ => none

/-- Modelled from the spec: `refuse(id)` is only valid from `SCHEDULED` and
reuses `CANCELLED` as its outcome. -/
def refuseStatus : AppointmentStatus → Option AppointmentStatus
  | .SCHEDULED => some .CANCELLED
  | _ => none

/-- Modelled from the spec: `cancel(id)` is valid from any non-terminal
state. -/
def cancelStatus : AppointmentStatus → Option AppointmentStatus
  | .SCHEDULED => some .CANCELLED
  | .CONFIRMED => some .CANCELLED
  | _ => none

/-- Modelled from the spec: completing an appointment, the transition
`CONFIRMED -> COMPLETED` of the state diagram. -/
def completeStatus : AppointmentStatus → Option AppointmentStatus
  | .CONFIRMED => some .COMPLETED
  | _ => none

/-- One step of the status state machine: some transition operation succeeds
and moves the status from `s` to `t`. -/
def statusStep (s t : AppointmentStatus) : Bool :=
  [confirmStatus, refuseStatus, cancelStatus, completeStatus].any
    (fun f => f s == some t)

/-! Reminder routes (`routes/reminders.ts`). -/

/-- The persisted `ReminderType` enum of the schema. -/
inductive ReminderType where
  | APPOINTMENT_REMINDER
  | FOLLOW_UP
  | APPOINTMENT_CONFIRMATION
  | BIRTHDAY
deriving DecidableEq, Repr

/-- `mapStringToReminderType`: the switch folds every string outside the
persisted enum (MEDICATION, CHECKUP, MANUAL, and anything else) into the
generic `FOLLOW_UP` fallback. -/
def mapStringToReminderType (typeString : String) : ReminderType :=
  if typeString = "APPOINTMENT_REMINDER" then .APPOINTMENT_REMINDER
  else if typeString = "FOLLOW_UP" then .FOLLOW_UP
  else if typeString = "APPOINTMENT_CONFIRMATION" then .APPOINTMENT_CONFIRMATION
  else if typeString = "BIRTHDAY" then .BIRTHDAY
  else .FOLLOW_UP

/-- A persisted `reminder` row. -/
structure DbReminder where
  id : String
  message : String
  messageFr : String
  type : ReminderType
  remindAt : Int
  sent : Bool
  appointmentId : String
  createdAt : Int
deriving DecidableEq, Repr

/-- A `ReminderResponse` record as held in the in-memory `manualReminders`
map; `dueDate`/`createdAt` are ISO strings in the source, modelled as epoch
milliseconds. -/
structure ManualReminder where
  id : String
  message : String
  type : String
  dueDate : Int
  completed : Bool
  priority : String
  appointmentId : Option String
  createdAt : Int
deriving DecidableEq, Repr

/-- State touched by the reminder routes: the process-wide `manualReminders`
map (insertion-ordered, as a JS `Map`), the persisted reminder rows, and the
ids of existing appointments. -/
structure ReminderState where
  manualReminders : List (String × ManualReminder)
  dbReminders : List DbReminder
  appointments : List String
deriving DecidableEq, Repr

/-- `manualReminders.get(k)`. -/
def mapGet (m : List (String × ManualReminder)) (k : String) :
    Option ManualReminder :=
  (m.find? (fun p => p.1 == k)).map Prod.snd

/-- `manualReminders.set(k, v)`: overwrite in place if the key exists,
otherwise append. -/
def mapSet (m : List (String × ManualReminder)) (k : String)
    (v : ManualReminder) : List (String × ManualReminder) :=
  if m.any (fun p => p.1 == k) then
    m.map (fun p => if p.1 == k then (k, v) else p)
  else m ++ [(k, v)]

inductive ReminderRouteError where
  | ValidationError
  | AppointmentNotFound
  | ReminderNotFound
  | InvalidSnoozeDuration
deriving DecidableEq, Repr

structure CreateReminderInput where
  message : String
  type : String
  dueDate : Int
  priority : String
  appointmentId : Option String
deriving DecidableEq, Repr

/-- What a reminder operation returns and where the record now lives. -/
inductive StoredReminder where
  | db (r : DbReminder)
  | manual (r : ManualReminder)
deriving DecidableEq, Repr

/-- `POST /reminders`: the appointment-linked branch persists a row whose
`type` went through `mapStringToReminderType`; the manual branch stores the
raw request record, original type string included, in the in-memory map.
`freshId` is the store-generated row id, `freshSuffix` the
timestamp-and-random suffix of a synthetic manual id, `now` the creation
clock reading. -/
def createReminder (st : ReminderState) (input : CreateReminderInput)
    (freshId freshSuffix : String) (now : Int) :
    Except ReminderRouteError (StoredReminder × ReminderState) :=
  if input.message = "" then .error .ValidationError
  else match input.appointmentId with
  | some apptId =>
    if !(st.appointments.contains apptId) then .error .AppointmentNotFound
    else
      let r : DbReminder :=
        { id := freshId, message := input.message, messageFr := input.message,
          type := mapStringToReminderType input.type,
          remindAt := input.dueDate, sent := false,
          appointmentId := apptId, createdAt := now }
      .ok (.db r, { st with dbReminders := st.dbReminders ++ [r] })
  | none =>
    let id := "manual-" ++ freshSuffix
    let r : ManualReminder :=
      { id := id, message := input.message, type := input.type,
        dueDate := input.dueDate, completed := false,
        priority := input.priority, appointmentId := none, createdAt := now }
    .ok (.manual r, { st with manualReminders := mapSet st.manualReminders id r })

/-- `PUT /reminders/:id/snooze`: rejects a non-positive duration, then
branches on the synthetic-id marker; either path recomputes the due date as
`now + minutes * 60 * 1000`, touching nothing else. -/
def snoozeReminder (st : ReminderState) (id : String) (minutes now : Int) :
    Except ReminderRouteError (StoredReminder × ReminderState) :=
  if minutes ≤ 0 then .error .InvalidSnoozeDuration
  else if strStartsWith id "manual-" then
    match mapGet st.manualReminders id with
    | none => .error .ReminderNotFound
    | some existing =>
      let snoozed := { existing with dueDate := now + minutes * 60 * 1000 }
      .ok (.manual snoozed,
           { st with manualReminders := mapSet st.manualReminders id snoozed })
  else
    match st.dbReminders.find? (fun r => r.id == id) with
    | none => .error .ReminderNotFound
    | some r =>
      let updated := { r with remindAt := now + minutes * 60 * 1000 }
      .ok (.db updated,
           { st with dbReminders := st.dbReminders.map (fun x =>
               if x.id == id then { x with remindAt := now + minutes * 60 * 1000 }
               else x) })

/-- The store state after a `PUT /auth/validate-client/:id` request: an error
response writes nothing. -/
def validateClientState (db : AuthDB) (cid actor : String) : AuthDB :=
  match validateClient db cid actor with
  | .ok (_, db2) => db2
  | .error _ => db

/-! Helper lemmas. -/

/-- `find?` commutes with a `map` whose function preserves the predicate. -/
theorem find?_map_comm {α : Type} (f : α → α) (p : α → Bool) (l : List α)
    (hp : ∀ a, p (f a) = p a) :
    (l.map f).find? p = (l.find? p).map f := by
  induction l with
  | nil => rfl
  | cons a t ih =>
    simp only [List.map_cons, List.find?]
    rw [hp]
    cases h : p a <;> simp [ih]

/-- The per-row function of the `validated := true` update preserves ids. -/
theorem validate_row_id (cid : String) (a : User) :
    (if a.id = cid then { a with validated := true } else a).id = a.id := by
  by_cases h : a.id = cid <;> simp [h]

/-- C2: confirm and refuse succeed exactly from SCHEDULED, cancel exactly from
SCHEDULED or CONFIRMED, and the reachable transitions of the status machine
are SCHEDULED to CONFIRMED or CANCELLED and CONFIRMED to CANCELLED or
COMPLETED, with CANCELLED and COMPLETED terminal. -/
theorem appointment_status_machine :
    (∀ s, (confirmStatus s).isSome = true ↔ s = .SCHEDULED) ∧
    (∀ s, (refuseStatus s).isSome = true ↔ s = .SCHEDULED) ∧
    (∀ s, (cancelStatus s).isSome = true ↔
       (s = .SCHEDULED ∨ s = .CONFIRMED)) ∧
    confirmStatus .SCHEDULED = some .CONFIRMED ∧
    refuseStatus .SCHEDULED = some .CANCELLED ∧
    (∀ s t, statusStep s t = true ↔
       ((s = .SCHEDULED ∧ (t = .CONFIRMED ∨ t = .CANCELLED)) ∨
        (s = .CONFIRMED ∧ (t = .CANCELLED ∨ t = .COMPLETED)))) ∧
    (∀ t, statusStep .CANCELLED t = false) ∧
    (∀ t, statusStep .COMPLETED t = false) := by
  refine ⟨?_, ?_, ?_, rfl, rfl, ?_, ?_, ?_⟩ <;> decide

/-- C3: validateClient fails when the target is missing, is not a CLIENT, or
is already validated, writing nothing in each case; otherwise it flips
`validated` to true, appends an audit entry, and a second call on the same
client fails with the already-validated error. -/
theorem validateClient_spec (db : AuthDB) (cid actor : String) :
    (findUserById db cid = none →
       validateClient db cid actor = .error .ClientNotFound ∧
       validateClientState db cid actor = db) ∧
    (∀ u, findUserById db cid = some u → u.role ≠ .CLIENT →
       validateClient db cid actor = .error .OnlyClientsValidated ∧
       validateClientState db cid actor = db) ∧
    (∀ u, findUserById db cid = some u → u.role = .CLIENT →
       u.validated = true →
       validateClient db cid actor = .error .AlreadyValidated ∧
       validateClientState db cid actor = db) ∧
    (∀ u, findUserById db cid = some u → u.role = .CLIENT →
       u.validated = false →
       ∃ db2, validateClient db cid actor =
           .ok ({ u with validated := true }, db2) ∧
         findUserById db2 cid = some { u with validated := true } ∧
         db2.auditLog = db.auditLog ++
           [{ userId := actor, action := "CLIENT_VALIDATED" }] ∧
         ∀ actor2, validateClient db2 cid actor2 = .error .AlreadyValidated) := by
  refine ⟨?_, ?_, ?_, ?_⟩
  · intro h
    constructor
    · unfold validateClient; rw [h]
    · unfold validateClientState validateClient; rw [h]
  · intro u hu hrole
    constructor
    · unfold validateClient; rw [hu]; simp [hrole]
    · unfold validateClientState validateClient; rw [hu]; simp [hrole]
  · intro u hu hrole hval
    constructor
    · unfold validateClient; rw [hu]; simp [hrole, hval]
    · unfold validateClientState validateClient; rw [hu]; simp [hrole, hval]
  · intro u hu hrole hval
    have hu' : db.users.find? (fun x => x.id == cid) = some u := hu
    have hpu : u.id = cid := by
      have := List.find?_some hu'
      simpa using this
    have hp : ∀ a : User,
        (((if a.id = cid then { a with validated := true } else a) : User).id
          == cid) = (a.id == cid) := by
      intro a
      rw [validate_row_id]
    have hrun : validateClient db cid actor =
        .ok ({ u with validated := true },
             { users := db.users.map (fun a =>
                 if a.id = cid then { a with validated := true } else a),
               auditLog := db.auditLog ++
                 [{ userId := actor, action := "CLIENT_VALIDATED" }] }) := by
      unfold validateClient
      rw [hu]
      simp [hrole, hval]
    have hfind2 : findUserById
        { users := db.users.map (fun a =>
            if a.id = cid then { a with validated := true } else a),
          auditLog := db.auditLog ++
            [{ userId := actor, action := "CLIENT_VALIDATED" }] } cid =
        some { u with validated := true } := by
      unfold findUserById
      simp only []
      rw [find?_map_comm _ _ _ hp, hu']
      simp [hpu]
    refine ⟨_, hrun, hfind2, rfl, ?_⟩
    intro actor2
    unfold validateClient
    rw [hfind2]
    simp [hrole]

def uPending : User :=
  { id := "c1", email := "pending@mail.co", password := "h", firstName := "P",
    lastName := "Q", phone := none, role := .CLIENT, validated := false }

def dbPending : AuthDB := { users := [uPending], auditLog := [] }

/-- Witness for C3: the success-then-repeat branch at a concrete store. -/
theorem validateClient_spec_witness :
    ∃ db2, validateClient dbPending "c1" "a1" =
        .ok ({ uPending with validated := true }, db2) ∧
      findUserById db2 "c1" = some { uPending with validated := true } ∧
      db2.auditLog = dbPending.auditLog ++
        [{ userId := "a1", action := "CLIENT_VALIDATED" }] ∧
      ∀ actor2, validateClient db2 "c1" actor2 = .error .AlreadyValidated :=
  (validateClient_spec dbPending "c1" "a1").2.2.2 uPending (by decide)
    (by decide) (by decide)

/-- The per-row function of the `validated := true` update preserves
emails. -/
theorem validate_row_email (cid : String) (a : User) :
    (if a.id = cid then { a with validated := true } else a).email = a.email := by
  by_cases h : a.id = cid <;> simp [h]

/-- C1: a password-matching CLIENT with `validated = false` is rejected with
the pending-validation error and gets no tokens; after a successful admin
validation the same credentials log in and receive an access and a refresh
token; ADMIN and PRACTITIONER users are never rejected for lack of
validation. -/
theorem login_validation_gate (compare : String → String → Bool)
    (db : AuthDB) (em pw : String) (u : User)
    (hfind : findUserByEmail db em = some u)
    (hcmp : compare pw u.password = true) :
    (u.role = .CLIENT → u.validated = false →
       login compare db em pw = .error .PendingValidation) ∧
    (∀ actor c db2, u.role = .CLIENT →
       validateClient db u.id actor = .ok (c, db2) →
       ∃ resp db3, login compare db2 em pw = .ok (resp, db3) ∧
         resp.token.userId = u.id ∧ resp.refreshToken.userId = u.id) ∧
    ((u.role = .ADMIN ∨ u.role = .PRACTITIONER) →
       ∃ resp db3, login compare db em pw = .ok (resp, db3) ∧
         resp.token.userId = u.id ∧ resp.refreshToken.userId = u.id) := by
  have hfind' : db.users.find? (fun x => x.email == lowercase em) = some u := hfind
  refine ⟨?_, ?_, ?_⟩
  · intro hrole hval
    unfold login
    rw [hfind]
    simp [hcmp, hrole, hval]
  · intro actor c db2 hrole hvc
    unfold validateClient at hvc
    cases hw : findUserById db u.id with
    | none => rw [hw] at hvc; simp at hvc
    | some w =>
      rw [hw] at hvc
      by_cases hwr : w.role != UserRole.CLIENT
      · simp [hwr] at hvc
      · by_cases hwv : w.validated
        · simp [hwr, hwv] at hvc
        · simp only [hwr, hwv, if_neg, if_false, Bool.false_eq_true,
            not_false_eq_true, if_true] at hvc
          simp only [Except.ok.injEq, Prod.mk.injEq] at hvc
          obtain ⟨-, hdb2⟩ := hvc
          subst hdb2
          have hp : ∀ a : User,
              (((if a.id = u.id then { a with validated := true } else a) :
                User).email == lowercase em) = (a.email == lowercase em) := by
            intro a
            rw [validate_row_email]
          have hfound2 : findUserByEmail
              { users := db.users.map (fun a =>
                  if a.id = u.id then { a with validated := true } else a),
                auditLog := db.auditLog ++
                  [{ userId := actor, action := "CLIENT_VALIDATED" }] } em =
              some { u with validated := true } := by
            unfold findUserByEmail
            rw [find?_map_comm _ _ _ hp, hfind']
            simp
          have hlogin : login compare
              { users := db.users.map (fun a =>
                  if a.id = u.id then { a with validated := true } else a),
                auditLog := db.auditLog ++
                  [{ userId := actor, action := "CLIENT_VALIDATED" }] } em pw =
              .ok ({ user := ({ u with validated := true } : User).toAuthUser,
                     token := { userId := u.id },
                     refreshToken := { userId := u.id } },
                   { users := db.users.map (fun a =>
                       if a.id = u.id then { a with validated := true } else a),
                     auditLog := (db.auditLog ++
                       [{ userId := actor, action := "CLIENT_VALIDATED" }]) ++
                       [{ userId := u.id, action := "USER_LOGIN" }] }) := by
            unfold login
            rw [hfound2]
            simp [hcmp, generateTokens]
          exact ⟨_, _, hlogin, rfl, rfl⟩
  · intro hrole
    have hroleb : (u.role == UserRole.CLIENT) = false := by
      cases hrole with
      | inl h => rw [h]; rfl
      | inr h => rw [h]; rfl
    have hlogin : login compare db em pw =
        .ok ({ user := u.toAuthUser, token := { userId := u.id },
               refreshToken := { userId := u.id } },
             { db with auditLog := db.auditLog ++
                 [{ userId := u.id, action := "USER_LOGIN" }] }) := by
      unfold login
      rw [hfind]
      simp [hcmp, hroleb, generateTokens]
    exact ⟨_, _, hlogin, rfl, rfl⟩

/-- String equality standing in for `bcrypt.compare` in concrete witnesses:
a stored hash matches exactly its own preimage. -/
def cmpEq : String → String → Bool := fun a b => a == b

/-- Witness for C1: the pending CLIENT is rejected with PendingValidation
even though the password matches. -/
theorem login_validation_gate_witness :
    login cmpEq dbPending "pending@mail.co" "h" = .error .PendingValidation :=
  (login_validation_gate cmpEq dbPending "pending@mail.co" "h" uPending
    (by decide) (by decide)).1 (by decide) (by decide)

/-- C5: refreshToken collapses every failure — unverifiable token, unknown
user id, de-validated CLIENT — into the single invalid-refresh-token error,
and on a verifiable token of a still-validated user reissues both tokens. -/
theorem refreshToken_spec (verify : String → Option String) (db : AuthDB)
    (tok : String) :
    (verify tok = none →
       refreshToken verify db tok = .error .InvalidRefreshToken) ∧
    (∀ uid, verify tok = some uid → findUserById db uid = none →
       refreshToken verify db tok = .error .InvalidRefreshToken) ∧
    (∀ uid u, verify tok = some uid → findUserById db uid = some u →
       u.role = .CLIENT → u.validated = false →
       refreshToken verify db tok = .error .InvalidRefreshToken) ∧
    (∀ uid u, verify tok = some uid → findUserById db uid = some u →
       (u.role ≠ .CLIENT ∨ u.validated = true) →
       refreshToken verify db tok =
         .ok { user := u.toAuthUser, token := { userId := u.id },
               refreshToken := { userId := u.id } }) := by
  refine ⟨?_, ?_, ?_, ?_⟩
  · intro hv
    have hinner : refreshTokenInner verify db tok =
        .error .InvalidRefreshToken := by
      unfold refreshTokenInner
      rw [hv]
    unfold refreshToken
    rw [hinner]
  · intro uid hv hu
    have hinner : refreshTokenInner verify db tok =
        .error .InvalidRefreshToken := by
      unfold refreshTokenInner
      rw [hv]
      simp only []
      rw [hu]
    unfold refreshToken
    rw [hinner]
  · intro uid u hv hu hrole hval
    have hinner : refreshTokenInner verify db tok = .error .AccountRevoked := by
      unfold refreshTokenInner
      rw [hv]
      simp only []
      rw [hu]
      simp [hrole, hval]
    unfold refreshToken
    rw [hinner]
  · intro uid u hv hu hok
    have hguard : (u.role == UserRole.CLIENT && !u.validated) = false := by
      rcases hok with h | h
      · simp [h]
      · simp [h]
    have hinner : refreshTokenInner verify db tok =
        .ok { user := u.toAuthUser, token := { userId := u.id },
              refreshToken := { userId := u.id } } := by
      unfold refreshTokenInner
      rw [hv]
      simp only []
      rw [hu]
      simp [hguard, generateTokens]
    unfold refreshToken
    rw [hinner]

def uAdmin : User :=
  { id := "a1", email := "admin@mail.co", password := "ha", firstName := "A",
    lastName := "D", phone := none, role := .ADMIN, validated := true }

def dbTwo : AuthDB := { users := [uPending, uAdmin], auditLog := [] }

/-- A verifier that accepts any token with the admin id claim, standing in
for `jwt.verify` in the concrete witness. -/
def verifyA1 : String → Option String := fun _ => some "a1"

/-- Witness for C5: a verifiable token of the admin reissues both tokens. -/
theorem refreshToken_spec_witness :
    refreshToken verifyA1 dbTwo "t" =
      .ok { user := uAdmin.toAuthUser, token := { userId := "a1" },
            refreshToken := { userId := "a1" } } :=
  (refreshToken_spec verifyA1 dbTwo "t").2.2.2 "a1" uAdmin rfl (by decide)
    (Or.inl (by decide))

/-- C4: deleting an animal visible to the caller is blocked, with no write,
while any appointment or treatment note references it, and succeeds exactly
when it has zero of both, removing the animal and touching nothing else. -/
theorem deleteAnimal_spec (db : ClinicDB) (caller : Caller) (id : String)
    (a : Animal)
    (hvis : db.animals.find? (fun x =>
      if isAdminRole caller.role then x.id == id
      else x.id == id && x.ownerId == caller.id) = some a) :
    ((db.appointments.any (fun ap => ap.animalId == id) = true ∨
      db.treatmentNotes.any (fun n => n.animalId == id) = true) →
       deleteAnimal db caller id = .error .DependencyBlocked ∧
       deleteAnimalState db caller id = db) ∧
    (db.appointments.any (fun ap => ap.animalId == id) = false →
     db.treatmentNotes.any (fun n => n.animalId == id) = false →
       ∃ db2, deleteAnimal db caller id = .ok db2 ∧
         db2.animals.find? (fun x => x.id == id) = none ∧
         db2.appointments = db.appointments ∧
         db2.treatmentNotes = db.treatmentNotes) := by
  constructor
  · intro hdep
    have hguard : (db.appointments.any (fun ap => ap.animalId == id) ||
        db.treatmentNotes.any (fun n => n.animalId == id)) = true := by
      rcases hdep with h | h <;> simp [h]
    constructor
    · simp only [deleteAnimal]
      rw [hvis]
      simp [hguard]
    · simp only [deleteAnimalState, deleteAnimal]
      rw [hvis]
      simp [hguard]
  · intro h1 h2
    refine ⟨{ db with animals := db.animals.filter (fun x => x.id != id) },
      ?_, ?_, rfl, rfl⟩
    · simp only [deleteAnimal]
      rw [hvis]
      simp [h1, h2]
    · rw [List.find?_eq_none]
      intro x hx
      have hxid := (List.mem_filter.mp hx).2
      simp only [bne_iff_ne, ne_eq] at hxid
      simp [hxid]

def animalRex : Animal :=
  { id := "an1", ownerId := "c1", name := "Rex", breed := "Lab", age := 3,
    weight := none, gender := .MALE, notes := none }

def clinicNoDeps : ClinicDB :=
  { animals := [animalRex], appointments := [], treatmentNotes := [] }

def callerOwner : Caller := { id := "c1", role := .CLIENT }

/-- Witness for C4: the owner deletes a dependency-free animal and the row is
gone. -/
theorem deleteAnimal_spec_witness :
    ∃ db2, deleteAnimal clinicNoDeps callerOwner "an1" = .ok db2 ∧
      db2.animals.find? (fun x => x.id == "an1") = none ∧
      db2.appointments = clinicNoDeps.appointments ∧
      db2.treatmentNotes = clinicNoDeps.treatmentNotes :=
  (deleteAnimal_spec clinicNoDeps callerOwner "an1" animalRex
    (by decide)).2 (by decide) (by decide)

/-- After `manualReminders.set(k, v)` the lookup of `k` yields `v`. -/
theorem mapGet_mapSet (m : List (String × ManualReminder)) (k : String)
    (v : ManualReminder) : mapGet (mapSet m k v) k = some v := by
  induction m with
  | nil =>
    unfold mapSet mapGet
    simp
  | cons p t ih =>
    by_cases hpk : (p.1 == k) = true
    · have hany : ((p :: t).any (fun q => q.1 == k)) = true := by
        simp [List.any_cons, hpk]
      unfold mapSet
      rw [if_pos hany, List.map_cons, if_pos hpk]
      unfold mapGet
      rw [List.find?_cons_of_pos _ (by simp)]
      rfl
    · have hpk2 : (p.1 == k) = false := Bool.eq_false_iff.mpr hpk
      by_cases hta : (t.any (fun q => q.1 == k)) = true
      · have hany : ((p :: t).any (fun q => q.1 == k)) = true := by
          simp [List.any_cons, hta]
        have hms : mapSet (p :: t) k v = p :: mapSet t k v := by
          unfold mapSet
          rw [if_pos hany, if_pos hta, List.map_cons, if_neg hpk]
        rw [hms]
        unfold mapGet
        simp only [List.find?_cons, hpk2, cond_false]
        exact ih
      · have hta2 : (t.any (fun q => q.1 == k)) = false :=
          Bool.eq_false_iff.mpr hta
        have hany : ((p :: t).any (fun q => q.1 == k)) = false := by
          simp [List.any_cons, hpk2, hta2]
        have hms : mapSet (p :: t) k v = p :: mapSet t k v := by
          unfold mapSet
          rw [if_neg (by simp [hany]), if_neg (by simp [hta2])]
          rfl
        rw [hms]
        unfold mapGet
        simp only [List.find?_cons, hpk2, cond_false]
        exact ih

/-- C6: snoozing an existing reminder by `m > 0` minutes, on either storage
path, sets its due date to `now + m` minutes independent of the previous
value, leaves its done flag and every other field unchanged, and stores the
updated record under the same id. -/
theorem snoozeReminder_spec (st : ReminderState) (id : String)
    (minutes now : Int) (hm : 0 < minutes) :
    (∀ ex, strStartsWith id "manual-" = true →
       mapGet st.manualReminders id = some ex →
       ∃ snoozed st2, snoozeReminder st id minutes now =
           .ok (.manual snoozed, st2) ∧
         snoozed.dueDate = now + minutes * 60 * 1000 ∧
         snoozed.completed = ex.completed ∧
         snoozed.id = ex.id ∧ snoozed.message = ex.message ∧
         snoozed.type = ex.type ∧ snoozed.priority = ex.priority ∧
         snoozed.appointmentId = ex.appointmentId ∧
         snoozed.createdAt = ex.createdAt ∧
         mapGet st2.manualReminders id = some snoozed ∧
         st2.dbReminders = st.dbReminders) ∧
    (∀ r, strStartsWith id "manual-" = false →
       st.dbReminders.find? (fun x => x.id == id) = some r →
       ∃ upd st2, snoozeReminder st id minutes now = .ok (.db upd, st2) ∧
         upd.remindAt = now + minutes * 60 * 1000 ∧
         upd.sent = r.sent ∧
         upd.id = r.id ∧ upd.message = r.message ∧
         upd.messageFr = r.messageFr ∧ upd.type = r.type ∧
         upd.appointmentId = r.appointmentId ∧ upd.createdAt = r.createdAt ∧
         st2.dbReminders.find? (fun x => x.id == id) = some upd ∧
         st2.manualReminders = st.manualReminders) := by
  constructor
  · intro ex hman hget
    have hrun : snoozeReminder st id minutes now =
        .ok (.manual { ex with dueDate := now + minutes * 60 * 1000 },
             { st with manualReminders :=
                 (mapSet st.manualReminders id
                   { ex with dueDate := now + minutes * 60 * 1000 }) }) := by
      unfold snoozeReminder
      rw [if_neg (not_le.mpr hm), if_pos hman, hget]
    exact ⟨_, _, hrun, rfl, rfl, rfl, rfl, rfl, rfl, rfl, rfl,
      mapGet_mapSet _ _ _, rfl⟩
  · intro r hman hget
    have hrid : (r.id == id) = true := by
      have h := List.find?_some hget
      exact h
    have hrun : snoozeReminder st id minutes now =
        .ok (.db { r with remindAt := now + minutes * 60 * 1000 },
             { st with dbReminders := st.dbReminders.map (fun x =>
                 if x.id == id then
                   { x with remindAt := now + minutes * 60 * 1000 }
                 else x) }) := by
      unfold snoozeReminder
      rw [if_neg (not_le.mpr hm), if_neg (by simp [hman]), hget]
    have hp : ∀ x : DbReminder,
        (((if x.id == id then
            { x with remindAt := now + minutes * 60 * 1000 }
          else x) : DbReminder).id == id) = (x.id == id) := by
      intro x
      by_cases hx : (x.id == id) = true
      · simp [hx]
      · simp [hx]
    have hfind2 : (st.dbReminders.map (fun x =>
        if x.id == id then { x with remindAt := now + minutes * 60 * 1000 }
        else x)).find? (fun x => x.id == id) =
        some { r with remindAt := now + minutes * 60 * 1000 } := by
      rw [find?_map_comm _ _ _ hp, hget]
      simp [hrid]
      intro h
      exact absurd (by simpa using hrid) h
    exact ⟨_, _, hrun, rfl, rfl, rfl, rfl, rfl, rfl, rfl, rfl, hfind2, rfl⟩

def mr1 : ManualReminder :=
  { id := "manual-x", message := "call back", type := "MANUAL",
    dueDate := 100, completed := false, priority := "MEDIUM",
    appointmentId := none, createdAt := 0 }

def remSt : ReminderState :=
  { manualReminders := [("manual-x", mr1)], dbReminders := [],
    appointments := [] }

/-- Witness for C6: snoozing the concrete manual reminder by 15 minutes. -/
theorem snoozeReminder_spec_witness :
    ∃ snoozed st2, snoozeReminder remSt "manual-x" 15 1000 =
        .ok (.manual snoozed, st2) ∧
      snoozed.dueDate = 1000 + 15 * 60 * 1000 ∧
      snoozed.completed = mr1.completed ∧
      snoozed.id = mr1.id ∧ snoozed.message = mr1.message ∧
      snoozed.type = mr1.type ∧ snoozed.priority = mr1.priority ∧
      snoozed.appointmentId = mr1.appointmentId ∧
      snoozed.createdAt = mr1.createdAt ∧
      mapGet st2.manualReminders "manual-x" = some snoozed ∧
      st2.dbReminders = remSt.dbReminders :=
  (snoozeReminder_spec remSt "manual-x" 15 1000 (by decide)).1 mr1
    (by decide) (by decide)

/-- C7: a create request whose type string lies outside the persisted enum
is stored with the generic FOLLOW_UP type when linked to an appointment — the
original string is lost in the persisted row — while a manual (unlinked)
reminder keeps the original type string in its stored record. -/
theorem createReminder_type_coercion (st : ReminderState)
    (input : CreateReminderInput) (freshId freshSuffix : String) (now : Int)
    (hmsg : input.message ≠ "")
    (ht1 : input.type ≠ "APPOINTMENT_REMINDER")
    (ht2 : input.type ≠ "FOLLOW_UP")
    (ht3 : input.type ≠ "APPOINTMENT_CONFIRMATION")
    (ht4 : input.type ≠ "BIRTHDAY") :
    (∀ apptId, input.appointmentId = some apptId →
       st.appointments.contains apptId = true →
       ∃ r st2, createReminder st input freshId freshSuffix now =
           .ok (.db r, st2) ∧
         r.type = .FOLLOW_UP ∧ r ∈ st2.dbReminders) ∧
    (input.appointmentId = none →
       ∃ r st2, createReminder st input freshId freshSuffix now =
           .ok (.manual r, st2) ∧
         r.type = input.type ∧
         mapGet st2.manualReminders r.id = some r) := by
  have hfall : mapStringToReminderType input.type = .FOLLOW_UP := by
    unfold mapStringToReminderType
    rw [if_neg ht1, if_neg ht2, if_neg ht3, if_neg ht4]
  constructor
  · intro apptId happt hcont
    have hrun : createReminder st input freshId freshSuffix now =
        .ok (.db { id := freshId, message := input.message,
                   messageFr := input.message,
                   type := mapStringToReminderType input.type,
                   remindAt := input.dueDate, sent := false,
                   appointmentId := apptId, createdAt := now },
             { st with dbReminders := st.dbReminders ++
                 [{ id := freshId, message := input.message,
                    messageFr := input.message,
                    type := mapStringToReminderType input.type,
                    remindAt := input.dueDate, sent := false,
                    appointmentId := apptId, createdAt := now }] }) := by
      unfold createReminder
      rw [if_neg hmsg, happt]
      simp only []
      rw [if_neg (by rw [hcont]; simp)]
    refine ⟨_, _, hrun, hfall, ?_⟩
    simp
  · intro happt
    have hrun : createReminder st input freshId freshSuffix now =
        .ok (.manual { id := "manual-" ++ freshSuffix,
                       message := input.message, type := input.type,
                       dueDate := input.dueDate, completed := false,
                       priority := input.priority, appointmentId := none,
                       createdAt := now },
             { st with manualReminders :=
                 (mapSet st.manualReminders ("manual-" ++ freshSuffix)
                   { id := "manual-" ++ freshSuffix,
                     message := input.message, type := input.type,
                     dueDate := input.dueDate, completed := false,
                     priority := input.priority, appointmentId := none,
                     createdAt := now }) }) := by
      unfold createReminder
      rw [if_neg hmsg, happt]
    exact ⟨_, _, hrun, rfl, mapGet_mapSet _ _ _⟩

def inputMedication : CreateReminderInput :=
  { message := "give pills", type := "MEDICATION", dueDate := 500,
    priority := "HIGH", appointmentId := some "ap1" }

def remStWithAppt : ReminderState :=
  { manualReminders := [], dbReminders := [], appointments := ["ap1"] }

/-- Witness for C7: a linked MEDICATION reminder is persisted as FOLLOW_UP. -/
theorem createReminder_type_coercion_witness :
    ∃ r st2, createReminder remStWithAppt inputMedication "r1" "s1" 0 =
        .ok (.db r, st2) ∧
      r.type = .FOLLOW_UP ∧ r ∈ st2.dbReminders :=
  (createReminder_type_coercion remStWithAppt inputMedication "r1" "s1" 0
    (by decide) (by decide) (by decide) (by decide) (by decide)).1 "ap1"
    (by decide) (by decide)

theorem profileFields_id (body : UpdateClientBody) (u : User) :
    (profileFields body u).id = u.id := rfl

theorem profileFields_validated (body : UpdateClientBody) (u : User) :
    (profileFields body u).validated = u.validated := rfl

/-- A mapped user list whose function preserves ids and reflects a false
`validated` flag reflects unvalidated members back to the original list. -/
theorem mem_map_validated (l : List User) (f : User → User)
    (hid : ∀ u, (f u).id = u.id)
    (hval : ∀ u, (f u).validated = false → u.validated = false) :
    ∀ u2, u2 ∈ l.map f → u2.validated = false →
      ∃ u, u ∈ l ∧ u.id = u2.id ∧ u.validated = false := by
  intro u2 hmem hv
  obtain ⟨u, hu, rfl⟩ := List.mem_map.mp hmem
  exact ⟨u, hu, (hid u).symm, hval u hv⟩

/-- C8: across the exposed user-management operations (profile update, single
validate — service or route — and bulk validate) the `validated` flag never
flips back: any user left unvalidated afterwards was already unvalidated,
under the same id, before the operation. -/
theorem validated_never_revoked (db : AuthDB) (op : UserOp) :
    ∀ u2, u2 ∈ (applyUserOp db op).users → u2.validated = false →
      ∃ u, u ∈ db.users ∧ u.id = u2.id ∧ u.validated = false := by
  cases op with
  | updateProfile id body =>
    simp only [applyUserOp]
    cases h : updateClientProfile db id body with
    | error e => exact fun u2 h2 hv => ⟨u2, h2, rfl, hv⟩
    | ok p =>
      unfold updateClientProfile at h
      cases hf : findUserById db id with
      | none => rw [hf] at h; simp at h
      | some user =>
        rw [hf] at h
        simp only [] at h
        by_cases hr : (user.role != UserRole.CLIENT) = true
        · rw [if_pos hr] at h; simp at h
        · rw [if_neg hr] at h
          split at h
          · simp at h
          · simp only [Except.ok.injEq] at h
            subst h
            intro u2 hmem hv
            refine mem_map_validated db.users _ ?_ ?_ u2 hmem hv
            · intro u
              by_cases hid : u.id = id
              · rw [if_pos hid, profileFields_id]
              · rw [if_neg hid]
            · intro u
              by_cases hid : u.id = id
              · intro hval2
                rw [if_pos hid, profileFields_validated] at hval2
                exact hval2
              · intro hval2
                rwa [if_neg hid] at hval2
  | validateSingle cid actor =>
    simp only [applyUserOp]
    cases h : validateClient db cid actor with
    | error e => exact fun u2 h2 hv => ⟨u2, h2, rfl, hv⟩
    | ok p =>
      unfold validateClient at h
      cases hf : findUserById db cid with
      | none => rw [hf] at h; simp at h
      | some user =>
        rw [hf] at h
        simp only [] at h
        by_cases hr : (user.role != UserRole.CLIENT) = true
        · rw [if_pos hr] at h; simp at h
        · rw [if_neg hr] at h
          by_cases hv2 : user.validated = true
          · rw [if_pos hv2] at h; simp at h
          · rw [if_neg hv2] at h
            simp only [Except.ok.injEq] at h
            subst h
            intro u2 hmem hv
            refine mem_map_validated db.users _ ?_ ?_ u2 hmem hv
            · intro u
              exact validate_row_id cid u
            · intro u
              by_cases hid : u.id = cid
              · intro hval2
                rw [if_pos hid] at hval2
                simp at hval2
              · intro hval2
                rwa [if_neg hid] at hval2
  | validateRoute id actor =>
    simp only [applyUserOp]
    cases h : validateUserRoute db id actor with
    | error e => exact fun u2 h2 hv => ⟨u2, h2, rfl, hv⟩
    | ok p =>
      unfold validateUserRoute at h
      cases hf : findUserById db id with
      | none => rw [hf] at h; simp at h
      | some user =>
        rw [hf] at h
        simp only [] at h
        by_cases hr : (user.role != UserRole.CLIENT) = true
        · rw [if_pos hr] at h; simp at h
        · rw [if_neg hr] at h
          by_cases hv2 : user.validated = true
          · rw [if_pos hv2] at h; simp at h
          · rw [if_neg hv2] at h
            simp only [Except.ok.injEq] at h
            subst h
            intro u2 hmem hv
            refine mem_map_validated db.users _ ?_ ?_ u2 hmem hv
            · intro u
              exact validate_row_id id u
            · intro u
              by_cases hid : u.id = id
              · intro hval2
                rw [if_pos hid] at hval2
                simp at hval2
              · intro hval2
                rwa [if_neg hid] at hval2
  | bulkValidate actor ids =>
    simp only [applyUserOp]
    cases h : bulkValidateClients db actor ids with
    | error e => exact fun u2 h2 hv => ⟨u2, h2, rfl, hv⟩
    | ok p =>
      unfold bulkValidateClients at h
      by_cases he : ids.isEmpty = true
      · rw [if_pos he] at h; simp at h
      · rw [if_neg he] at h
        simp only [Except.ok.injEq] at h
        subst h
        intro u2 hmem hv
        refine mem_map_validated db.users _ ?_ ?_ u2 hmem hv
        · intro u
          by_cases hb : bulkMatch ids u = true
          · rw [if_pos hb]
          · rw [if_neg hb]
        · intro u
          by_cases hb : bulkMatch ids u = true
          · intro hval2
            rw [if_pos hb] at hval2
            simp at hval2
          · intro hval2
            rwa [if_neg hb] at hval2

def bodyRename : UpdateClientBody :=
  { firstName := some "Zed", lastName := none, phone := none, email := none }

/-- Witness for C8: after a profile rename, the still-unvalidated client maps
back to the unvalidated row it came from. -/
theorem validated_never_revoked_witness :
    ∃ u, u ∈ dbTwo.users ∧
      u.id = ({ uPending with firstName := "Zed" } : User).id ∧
      u.validated = false :=
  validated_never_revoked dbTwo (.updateProfile "c1" bodyRename)
    { uPending with firstName := "Zed" } (by decide) (by decide)

/-- `AuthService.register` always creates a CLIENT row with
`validated = false` and stores it. -/
theorem register_mk_client (hash : String → String) (freshId : String)
    (db : AuthDB) (data : RegisterInput) (u : User) (db2 : AuthDB)
    (h : register hash freshId db data = .ok (u, db2)) :
    u.role = .CLIENT ∧ u.validated = false ∧ u ∈ db2.users := by
  unfold register at h
  cases hf : findUserByEmail db data.email with
  | some w => rw [hf] at h; simp at h
  | none =>
    rw [hf] at h
    simp only [Except.ok.injEq, Prod.mk.injEq] at h
    obtain ⟨hu, hdb⟩ := h
    subst hu
    subst hdb
    refine ⟨rfl, rfl, ?_⟩
    simp

/-- C9: the public register route ignores any role field in the body — the
result is literally independent of it — and every successfully created user
is a CLIENT with `validated = false`. -/
theorem registerRoute_forces_client (hash : String → String)
    (freshId : String) (db : AuthDB) (body : RegisterBody) :
    (∀ rf rf2 : Option UserRole,
       registerRoute hash freshId db { body with role := rf } =
       registerRoute hash freshId db { body with role := rf2 }) ∧
    (∀ u db2, registerRoute hash freshId db body = .ok (u, db2) →
       u.role = .CLIENT ∧ u.validated = false ∧ u ∈ db2.users) := by
  constructor
  · intro rf rf2
    rfl
  · intro u db2 hreg
    unfold registerRoute at hreg
    repeat' split at hreg
    all_goals try simp at hreg
    all_goals
      split at hreg <;>
        first
        | (rename_i r hr
           simp only [Except.ok.injEq] at hreg
           subst hreg
           exact register_mk_client _ _ _ _ u db2 hr)
        | simp at hreg

def bodyJo : RegisterBody :=
  { firstName := some "Jo", lastName := some "Ann", email := some "jo@mail.co",
    phone := none, password := some "secret1", role := some .ADMIN }

def uJo : User :=
  { id := "u9", email := "jo@mail.co", password := "secret1",
    firstName := "Jo", lastName := "Ann", phone := none, role := .CLIENT,
    validated := false }

/-- Identity, standing in for `bcrypt.hash` in concrete witnesses. -/
def hashId : String → String := fun s => s

/-- Witness for C9: a register body that asks for ADMIN still produces an
unvalidated CLIENT. -/
theorem registerRoute_forces_client_witness :
    uJo.role = .CLIENT ∧ uJo.validated = false ∧
      uJo ∈ ({ users := dbTwo.users ++ [uJo],
               auditLog := dbTwo.auditLog ++
                 [{ userId := "u9", action := "USER_REGISTERED" }] } :
             AuthDB).users :=
  (registerRoute_forces_client hashId "u9" dbTwo bodyJo).2 uJo
    { users := dbTwo.users ++ [uJo],
      auditLog := dbTwo.auditLog ++
        [{ userId := "u9", action := "USER_REGISTERED" }] } (by rfl)

/-- C10: bulk validation on a non-empty id list always succeeds, updates
exactly the listed users that are unvalidated CLIENTs (reporting their
count), leaves every other row untouched — silently skipping nonexistent,
non-CLIENT and already-validated ids — whereas single validateClient on an
already-validated CLIENT fails. -/
theorem bulkValidate_spec (db : AuthDB) (actor : String) (ids : List String)
    (hne : ids ≠ []) :
    ∃ db2, bulkValidateClients db actor ids =
        .ok ((db.users.filter (bulkMatch ids)).length, db2) ∧
      db2.users.length = db.users.length ∧
      (∀ i (hi : i < db.users.length) (hi2 : i < db2.users.length),
        (bulkMatch ids (db.users.get ⟨i, hi⟩) = false →
          db2.users.get ⟨i, hi2⟩ = db.users.get ⟨i, hi⟩) ∧
        (bulkMatch ids (db.users.get ⟨i, hi⟩) = true →
          db2.users.get ⟨i, hi2⟩ =
            { db.users.get ⟨i, hi⟩ with validated := true })) ∧
      (∀ uid u, findUserById db uid = some u → u.role = .CLIENT →
        u.validated = true →
        validateClient db uid actor = .error .AlreadyValidated) := by
  have hne2 : ids.isEmpty ≠ true := by
    simpa [List.isEmpty_iff] using hne
  have hrun : bulkValidateClients db actor ids =
      .ok ((db.users.filter (bulkMatch ids)).length,
           { users := db.users.map (fun u =>
               if bulkMatch ids u then { u with validated := true } else u),
             auditLog := db.auditLog ++
               [{ userId := actor, action := "BULK_VALIDATE_CLIENTS" }] }) := by
    unfold bulkValidateClients
    rw [if_neg hne2]
  refine ⟨_, hrun, by simp, ?_, ?_⟩
  · intro i hi hi2
    have hget : (db.users.map (fun u =>
        if bulkMatch ids u then { u with validated := true } else u)).get
          ⟨i, by simpa using hi2⟩ =
        (fun u => if bulkMatch ids u then { u with validated := true } else u)
          (db.users.get ⟨i, hi⟩) := by
      simp [List.getElem_map]
    constructor
    · intro hb
      rw [hget]
      simp only []
      rw [if_neg (by rw [hb]; simp)]
    · intro hb
      rw [hget]
      simp only []
      rw [if_pos hb]
  · intro uid u2 hfind hrole hval
    unfold validateClient
    rw [hfind]
    simp [hrole, hval]

/-- Witness for C10: of the ids `c1` (pending CLIENT), `nosuch`
(nonexistent) and `a1` (an ADMIN), only `c1` is updated and the call still
succeeds with count 1. -/
theorem bulkValidate_spec_witness :
    ∃ db2, bulkValidateClients dbTwo "a1" ["c1", "nosuch", "a1"] =
        .ok ((dbTwo.users.filter
          (bulkMatch ["c1", "nosuch", "a1"])).length, db2) ∧
      db2.users.length = dbTwo.users.length ∧
      (∀ i (hi : i < dbTwo.users.length) (hi2 : i < db2.users.length),
        (bulkMatch ["c1", "nosuch", "a1"] (dbTwo.users.get ⟨i, hi⟩) = false →
          db2.users.get ⟨i, hi2⟩ = dbTwo.users.get ⟨i, hi⟩) ∧
        (bulkMatch ["c1", "nosuch", "a1"] (dbTwo.users.get ⟨i, hi⟩) = true →
          db2.users.get ⟨i, hi2⟩ =
            { dbTwo.users.get ⟨i, hi⟩ with validated := true })) ∧
      (∀ uid u, findUserById dbTwo uid = some u → u.role = .CLIENT →
        u.validated = true →
        validateClient dbTwo uid "a1" = .error .AlreadyValidated) :=
  bulkValidate_spec dbTwo "a1" ["c1", "nosuch", "a1"] (by decide)

end OsteoCanin
